import Mathlib

/-!
# Verification of the SSM wire codec and session state machine

Shallow embedding of the agent-message binary codec (agent-message module)
and the AWSSSMSession state machine (aws-ssm-session.ts) of the humanmade/ssm
repository.

Modelling conventions:
* JavaScript strings are lists of UTF-16 code units (`List Nat`); `charCodeAt i`
  is list indexing and `.length` is list length.
* `Uint8Array` buffers are `List Nat` whose elements are bytes (< 256); element
  writes truncate modulo 256 (the ToUint8 conversion of `Uint8Array.set`).
* JavaScript 32-bit operations (`<<`, `>>`, `&` in the codec) are modelled with
  explicit two-complement normalisation `toInt32`.
* `TextDecoder(utf8).decode` is modelled by a faithful WHATWG UTF-8 decoder
  with U+FFFD replacement, followed by surrogate-pair re-encoding to UTF-16
  code units.
* External collaborators (UUID v4 generation, SHA-256, `Date.now()`, the JSON
  codec for auxiliary control payloads) are oracles: they enter as explicit
  parameters, exactly at the points where the source calls them.
-/

namespace SSM

/-- Two-complement normalisation of a JavaScript number to a signed 32-bit
integer (the `ToInt32` abstract operation, applied by the `<<` operator). -/
def toInt32 (x : Int) : Int :=
  let r := x % 4294967296
  if r < 2147483648 then r else r - 4294967296

/-- Behaviour of `Uint8Array.prototype.slice(start, end)` and `subarray` with
non-negative indices: elements in positions `[s, e)`, clamped to the buffer. -/
def sliceNat (l : List Nat) (s e : Nat) : List Nat :=
  (l.take e).drop s

/-- Index clamping of `Array.prototype.slice`: a negative index counts from the
end of the buffer, and indices are clamped to `[0, length]`. -/
def clampIdx (i : Int) (n : Nat) : Nat :=
  if i < 0 then (n + i).toNat else min i.toNat n

/-- Full `slice` with a possibly negative start index and an optional end index
(`none` means: to the end of the buffer). -/
def jsSlice (l : List Nat) (s : Int) (e : Option Int) : List Nat :=
  sliceNat l (clampIdx s l.length) (match e with | none => l.length | some e => clampIdx e l.length)

/-- WHATWG UTF-8 decode with replacement (the behaviour of
`new TextDecoder(utf8).decode`), producing Unicode code points.  Invalid bytes
become U+FFFD; decoding resumes at the offending byte. -/
def utf8Dec : List Nat → List Nat
  | [] => []
  | b :: rest =>
    if b ≤ 127 then b :: utf8Dec rest
    else if b < 194 ∨ 244 < b then 65533 :: utf8Dec rest
    else if b ≤ 223 then
      match rest with
      | [] => [65533]
      | c1 :: r1 =>
        if 128 ≤ c1 ∧ c1 ≤ 191 then (b % 32 * 64 + c1 % 64) :: utf8Dec r1
        else 65533 :: utf8Dec (c1 :: r1)
    else if b ≤ 239 then
      match rest with
      | [] => [65533]
      | c1 :: r1 =>
        if (if b = 224 then 160 else 128) ≤ c1 ∧ c1 ≤ (if b = 237 then 159 else 191) then
          match r1 with
          | [] => [65533]
          | c2 :: r2 =>
            if 128 ≤ c2 ∧ c2 ≤ 191 then ((b % 16 * 64 + c1 % 64) * 64 + c2 % 64) :: utf8Dec r2
            else 65533 :: utf8Dec (c2 :: r2)
        else 65533 :: utf8Dec (c1 :: r1)
    else
      match rest with
      | [] => [65533]
      | c1 :: r1 =>
        if (if b = 240 then 144 else 128) ≤ c1 ∧ c1 ≤ (if b = 244 then 143 else 191) then
          match r1 with
          | [] => [65533]
          | c2 :: r2 =>
            if 128 ≤ c2 ∧ c2 ≤ 191 then
              match r2 with
              | [] => [65533]
              | c3 :: r3 =>
                if 128 ≤ c3 ∧ c3 ≤ 191 then
                  (((b % 8 * 64 + c1 % 64) * 64 + c2 % 64) * 64 + c3 % 64) :: utf8Dec r3
                else 65533 :: utf8Dec (c3 :: r3)
            else 65533 :: utf8Dec (c2 :: r2)
        else 65533 :: utf8Dec (c1 :: r1)

/-- Re-encode a list of Unicode code points as UTF-16 code units (JavaScript
string contents): code points above U+FFFF become surrogate pairs. -/
def utf16OfCps (cps : List Nat) : List Nat :=
  cps.flatMap fun cp =>
    if cp < 65536 then [cp]
    else [55296 + (cp - 65536) / 1024, 56320 + (cp - 65536) % 1024]

/-- The NUL-stripping step of decodeText: drop code unit 0, the effect of
replacing the NUL regular expression by the empty string. -/
def stripNul (l : List Nat) : List Nat :=
  l.filter fun c => decide (c ≠ 0)

/-- Function `decodeText( buffer, start, end? )`: slice, UTF-8 decode, strip NULs. -/
def decodeText (buffer : List Nat) (start : Int) (stop : Option Int) : List Nat :=
  stripNul (utf16OfCps (utf8Dec (jsSlice buffer start stop)))

/-- The set of code units treated as white space by
`String.prototype.trimEnd`. -/
def isJsWs (c : Nat) : Bool :=
  decide (c = 9 ∨ c = 10 ∨ c = 11 ∨ c = 12 ∨ c = 13 ∨ c = 32 ∨ c = 160 ∨ c = 5760 ∨
    (8192 ≤ c ∧ c ≤ 8202) ∨ c = 8232 ∨ c = 8233 ∨ c = 8239 ∨ c = 8287 ∨ c = 12288 ∨ c = 65279)

/-- Behaviour of `String.prototype.trimEnd`: remove trailing white space. -/
def jsTrimEnd (l : List Nat) : List Nat :=
  (l.reverse.dropWhile isJsWs).reverse

/-- One step of `decodeInt`: `( acc << 8 ) + byte` with the 32-bit semantics of
the JavaScript shift operator. -/
def decodeIntStep (acc : Int) (b : Nat) : Int :=
  toInt32 (acc * 256) + b

/-- Function `decodeInt( buffer, start, end )`: big-endian accumulation of the sliced
bytes through 32-bit shifts. -/
def decodeInt (buffer : List Nat) (start stop : Nat) : Int :=
  (sliceNat buffer start stop).foldl decodeIntStep 0

/-- The big-endian byte quadruple written by `putInt` for a non-negative
value: `(v >> 24) & 0xff, (v >> 16) & 0xff, (v >> 8) & 0xff, v & 0xff`. -/
def be4 (value : Nat) : List Nat :=
  [value % 4294967296 / 16777216 % 256, value % 4294967296 / 65536 % 256,
   value % 4294967296 / 256 % 256, value % 4294967296 % 256]

/-- Overwrite the region `[off, off + src.length)` of a buffer with `src`
(the effect of `buffer.set( src, off )` when the write is in range). -/
def setAt (l : List Nat) (off : Nat) (src : List Nat) : List Nat :=
  l.take off ++ src ++ l.drop (off + src.length)

/-- Function `putInt( buffer, pos, value )`. -/
def putInt (buffer : List Nat) (pos : Nat) (value : Nat) : List Nat :=
  setAt buffer pos (be4 value)

/-- Function `putLong( buffer, pos, value )`: the source cheats and only fills the low
four bytes of the eight-byte slot. -/
def putLong (buffer : List Nat) (pos : Nat) (value : Nat) : List Nat :=
  putInt buffer (pos + 4) value

/-- Function `putString( buffer, start, end, value )`: fails when the value is longer
than the slot, otherwise writes code units (truncated to bytes) left-justified
and pads the slot with spaces (byte 32). -/
def putString (buffer : List Nat) (start stop : Nat) (value : List Nat) :
    Option (List Nat) :=
  let len := stop - start
  if len < value.length then none
  else some (setAt buffer start
    ((List.range len).map fun i => if value.length ≤ i then 32 else value.getD i 0 % 256))

/-- Behaviour of `byte.toString( 16 )`: lowercase hexadecimal digits of a natural number. -/
def hexStr (n : Nat) : List Nat :=
  (Nat.toDigits 16 n).map Char.toNat

/-- Behaviour of `.padStart( 2, 0 )`. -/
def padStart2 (l : List Nat) : List Nat :=
  List.replicate (2 - l.length) 48 ++ l

/-- Function `longToHex( buffer )`: concatenation of two-digit lowercase hex for each
byte. -/
def longToHex (buffer : List Nat) : List Nat :=
  buffer.foldl (fun s b => s ++ padStart2 (hexStr b)) []

/-- Behaviour of `raw.substr( start, length )`. -/
def substr (l : List Nat) (start len : Nat) : List Nat :=
  (l.drop start).take len

/-- Function `decodeUuid( buffer, start, end )`: split the 16-byte field into two
8-byte halves, treat the FIRST half as least significant and the SECOND as
most significant, hex them in that flipped order, and regroup 8-4-4-4-12 with
dashes (code unit 45). -/
def decodeUuid (buffer : List Nat) (start stop : Nat) : List Nat :=
  let bytes := sliceNat buffer start stop
  let leastSignificant := sliceNat bytes 0 8
  let mostSignificant := sliceNat bytes 8 16
  let raw := longToHex mostSignificant ++ longToHex leastSignificant
  substr raw 0 8 ++ 45 :: (substr raw 8 4 ++ 45 :: (substr raw 12 4 ++ 45 ::
    (substr raw 16 4 ++ 45 :: raw.drop 20)))

/-- The decoded message record (the fields the source actually decodes). -/
structure AgentMessage where
  MessageType : List Nat
  SequenceNumber : Int
  MessageId : List Nat
  PayloadType : Int
  Payload : List Nat
deriving DecidableEq, Repr

/-- Function `decode( buffer )`. -/
def decode (buffer : List Nat) : AgentMessage :=
  let headerLength := decodeInt buffer 0 4
  { MessageType := jsTrimEnd (decodeText buffer 4 (some 36)),
    SequenceNumber := decodeInt buffer 48 56,
    MessageId := decodeUuid buffer 64 80,
    PayloadType := decodeInt buffer 112 116,
    Payload := decodeText buffer (headerLength + 4) none }

/-- The caller-supplied part of an outbound message (`EncodeableAgentMessage`:
everything except the MessageId, which encode generates itself). -/
structure EncodeableAgentMessage where
  MessageType : List Nat
  SequenceNumber : Nat
  PayloadType : Nat
  Payload : List Nat
deriving DecidableEq, Repr

/-- Function `encode( message )`.  The fresh UUID bytes (written by `uuidv4` straight
into the buffer), the SHA-256 digest of the payload and `Date.now()` are
external effects and enter as parameters. -/
def encode (message : EncodeableAgentMessage) (uuid digest : List Nat) (now : Nat) :
    Option (List Nat) :=
  let payloadLength := message.Payload.length
  let totalLength := 116 + payloadLength + 4
  let data0 := List.replicate totalLength 0
  let data1 := putInt data0 0 116
  (putString data1 4 36 message.MessageType).bind fun data2 =>
    let data3 := putInt data2 36 1
    let data4 := putLong data3 40 now
    let data5 := putLong data4 48 message.SequenceNumber
    let data6 := putLong data5 56 (if 0 < message.SequenceNumber then 0 else 1)
    let data7 := setAt data6 64 uuid
    let data8 := setAt data7 80 digest
    let data9 := putInt data8 112 message.PayloadType
    let data10 := putInt data9 116 payloadLength
    putString data10 120 totalLength message.Payload

/-- Message-type slot contents: code units truncated to bytes, space padding
up to 32. -/
def paddedType (mt : List Nat) : List Nat :=
  mt.map (fun c => c % 256) ++ List.replicate (32 - mt.length) 32

/-- The exact byte string produced by a successful `encode` call. -/
def encodedBytes (mt : List Nat) (seq pt now : Nat) (uuid digest payload : List Nat) :
    List Nat :=
  be4 116 ++ paddedType mt ++ be4 1 ++
  (List.replicate 4 0 ++ be4 now) ++
  (List.replicate 4 0 ++ be4 seq) ++
  (List.replicate 4 0 ++ be4 (if 0 < seq then 0 else 1)) ++
  uuid ++ digest ++ be4 pt ++ be4 payload.length ++ payload.map (fun c => c % 256)

/-- Code units of lowercase hexadecimal digits. -/
def isHexCode (c : Nat) : Bool :=
  decide ((48 ≤ c ∧ c ≤ 57) ∨ (97 ≤ c ∧ c ≤ 102))

/-- A syntactically valid UUID string: five dash-separated groups of
lowercase hex digits with lengths 8-4-4-4-12. -/
def validUuidString (s : List Nat) : Prop :=
  ∃ g1 g2 g3 g4 g5 : List Nat,
    s = g1 ++ 45 :: (g2 ++ 45 :: (g3 ++ 45 :: (g4 ++ 45 :: g5))) ∧
    g1.length = 8 ∧ g2.length = 4 ∧ g3.length = 4 ∧ g4.length = 4 ∧ g5.length = 12 ∧
    (∀ c ∈ g1, isHexCode c = true) ∧ (∀ c ∈ g2, isHexCode c = true) ∧
    (∀ c ∈ g3, isHexCode c = true) ∧ (∀ c ∈ g4, isHexCode c = true) ∧
    (∀ c ∈ g5, isHexCode c = true)

/-- Canonical 8-4-4-4-12 textual form of 16 UUID bytes taken in order.
Modelled from the spec: the layout table asks for the two 8-byte halves
to form a standard 8-4-4-4-12 hex UUID string on decode. -/
def uuidCanonicalStr (bytes : List Nat) : List Nat :=
  let raw := bytes.flatMap fun b => padStart2 (hexStr b)
  substr raw 0 8 ++ 45 :: (substr raw 8 4 ++ 45 :: (substr raw 12 4 ++ 45 ::
    (substr raw 16 4 ++ 45 :: raw.drop 20)))

/-- Code units of the wire string output_stream_data. -/
def strOutputStreamData : List Nat :=
  [111, 117, 116, 112, 117, 116, 95, 115, 116, 114, 101, 97, 109, 95, 100, 97, 116, 97]

/-- Code units of the wire string start_publication. -/
def strStartPublication : List Nat :=
  [115, 116, 97, 114, 116, 95, 112, 117, 98, 108, 105, 99, 97, 116, 105, 111, 110]

/-- Code units of the wire string pause_publication. -/
def strPausePublication : List Nat :=
  [112, 97, 117, 115, 101, 95, 112, 117, 98, 108, 105, 99, 97, 116, 105, 111, 110]

/-- Code units of the wire string acknowledge. -/
def strAcknowledge : List Nat :=
  [97, 99, 107, 110, 111, 119, 108, 101, 100, 103, 101]

/-- Code units of the wire string input_stream_data. -/
def strInputStreamData : List Nat :=
  [105, 110, 112, 117, 116, 95, 115, 116, 114, 101, 97, 109, 95, 100, 97, 116, 97]

/-- Code units of the wire string channel_closed. -/
def strChannelClosed : List Nat :=
  [99, 104, 97, 110, 110, 101, 108, 95, 99, 108, 111, 115, 101, 100]

/-- The mutable fields of an `AWSSSMSession` object. -/
structure AWSSSMSession where
  outgoingSequenceNumber : Int
  outputMap : List (List Nat × List Nat)
  connectionClosed : Bool
  connectionTerminated : Bool
  lastAcknowledgedSequenceNumber : Option Int
  paused : Bool
deriving DecidableEq, Repr

/-- Field initialisers of the class (constructor state before any message). -/
def sessionStart : AWSSSMSession :=
  { outgoingSequenceNumber := 0, outputMap := [], connectionClosed := false,
    connectionTerminated := false, lastAcknowledgedSequenceNumber := none,
    paused := false }

/-- Behaviour of `Map.prototype.get`: lookup in the insertion-ordered output map. -/
def mapGet : List (List Nat × List Nat) → List Nat → Option (List Nat)
  | [], _ => none
  | (k, v) :: rest, key => if k = key then some v else mapGet rest key

/-- Behaviour of `Map.prototype.set`: update in place when the key exists, append
otherwise. -/
def mapSet : List (List Nat × List Nat) → List Nat → List Nat → List (List Nat × List Nat)
  | [], key, v => [(key, v)]
  | (k, v0) :: rest, key, v =>
    if k = key then (k, v) :: rest else (k, v0) :: mapSet rest key v

/-- Application events delivered through `emit`. -/
inductive SessionEvent where
  | output (text : List Nat)
  | connect
  | disconnect (reason : List Nat)
  | pause
  | resume
deriving DecidableEq, Repr

/-- An acknowledgment frame as constructed by `acknowledgeMessage`: message
header fields plus the four members of the JSON control payload (the
stringify step itself is external). -/
structure AckFrame where
  MessageType : List Nat
  SequenceNumber : Int
  PayloadType : Nat
  AcknowledgedMessageType : List Nat
  AcknowledgedMessageId : List Nat
  AcknowledgedMessageSequenceNumber : Int
deriving DecidableEq, Repr

/-- Method `acknowledgeMessage( messageType, messageId, messageSequenceNumber )`:
builds the acknowledge frame with the CURRENT outgoing sequence number and
payload type Output (1); it is written to the socket directly, so the session
state is untouched. -/
def acknowledgeMessage (s : AWSSSMSession) (messageType messageId : List Nat)
    (messageSequenceNumber : Int) : AckFrame :=
  { MessageType := strAcknowledge, SequenceNumber := s.outgoingSequenceNumber,
    PayloadType := 1, AcknowledgedMessageType := messageType,
    AcknowledgedMessageId := messageId,
    AcknowledgedMessageSequenceNumber := messageSequenceNumber }

/-- Results of `JSON.parse` on the two control payloads the handler reads:
`.AcknowledgedMessageSequenceNumber` of an acknowledge payload and `.Output`
of a channel_closed payload.  JSON parsing is an external collaborator, so it
enters as an oracle. -/
structure JsonEnv where
  ackSeq : List Nat → Int
  outField : List Nat → List Nat

/-- The `onmessage` handler switch, acting on one decoded message: returns
the new session state, the application events emitted (in order) and the
frames written to the socket. -/
def handleMessage (env : JsonEnv) (s : AWSSSMSession) (m : AgentMessage) :
    AWSSSMSession × List SessionEvent × List AckFrame :=
  if m.MessageType = strOutputStreamData then
    let frame := acknowledgeMessage s m.MessageType m.MessageId m.SequenceNumber
    let events := if (mapGet s.outputMap m.MessageId).isSome then []
      else [SessionEvent.output m.Payload]
    ({ s with outputMap := mapSet s.outputMap m.MessageId m.Payload }, events, [frame])
  else if m.MessageType = strStartPublication then
    ({ s with
        outgoingSequenceNumber :=
          match s.lastAcknowledgedSequenceNumber with
          | some v => v
          | none => 0,
        paused := false }, [SessionEvent.resume], [])
  else if m.MessageType = strPausePublication then
    ({ s with paused := true }, [SessionEvent.pause], [])
  else if m.MessageType = strAcknowledge then
    (if m.Payload ≠ [] then
      let n := env.ackSeq m.Payload
      if (match s.lastAcknowledgedSequenceNumber with
          | none => true
          | some v => decide (v < n)) then
        { s with lastAcknowledgedSequenceNumber := some n }
      else s
    else s, [], [])
  else if m.MessageType = strInputStreamData then
    (s, [], [])
  else if m.MessageType = strChannelClosed then
    let events := if m.Payload ≠ [] ∧ 0 < (env.outField m.Payload).length then
      [SessionEvent.output (env.outField m.Payload ++ [13, 10])] else []
    ({ s with connectionTerminated := true }, events, [])
  else
    (s, [], [])

/-- An outbound frame handed to `send`: the `EncodeableAgentMessage` record
built by `write` or `setSize` (the payload of `setSize` is the JSON object
`{cols, rows}` before stringification). -/
inductive OutPayload where
  | text (t : List Nat)
  | size (cols rows : Int)
deriving DecidableEq, Repr

/-- Outbound message record before encoding. -/
structure OutFrame where
  MessageType : List Nat
  SequenceNumber : Int
  PayloadType : Nat
  Payload : OutPayload
deriving DecidableEq, Repr

/-- Method `send( message )`: a no-op when the socket readyState is not 1 (OPEN);
otherwise increments the outgoing sequence number and writes the frame. -/
def send (readyState : Nat) (s : AWSSSMSession) (frame : OutFrame) :
    AWSSSMSession × List OutFrame :=
  if readyState ≠ 1 then (s, [])
  else ({ s with outgoingSequenceNumber := s.outgoingSequenceNumber + 1 }, [frame])

/-- Method `write( message )`: input_stream_data frame, payload type Output (1),
current sequence number. -/
def write (readyState : Nat) (s : AWSSSMSession) (message : List Nat) :
    AWSSSMSession × List OutFrame :=
  send readyState s
    { MessageType := strInputStreamData, SequenceNumber := s.outgoingSequenceNumber,
      PayloadType := 1, Payload := OutPayload.text message }

/-- Method `setSize( cols, rows )`: input_stream_data frame, payload type Size (3). -/
def setSize (readyState : Nat) (s : AWSSSMSession) (cols rows : Int) :
    AWSSSMSession × List OutFrame :=
  send readyState s
    { MessageType := strInputStreamData, SequenceNumber := s.outgoingSequenceNumber,
      PayloadType := 3, Payload := OutPayload.size cols rows }

/-- Modelled from the spec: the UTF-8 byte length of a JavaScript string
(the spec describes the buffer as header plus the payload byte length as
encoded); a surrogate pair encodes as 4 bytes, a lone surrogate as the
3-byte replacement character, as `TextEncoder` would produce. -/
def utf8ByteLength : List Nat → Nat
  | [] => 0
  | c :: rest =>
    if c < 128 then 1 + utf8ByteLength rest
    else if c < 2048 then 2 + utf8ByteLength rest
    else if 55296 ≤ c ∧ c ≤ 56319 then
      match rest with
      | c2 :: rest2 =>
        if 56320 ≤ c2 ∧ c2 ≤ 57343 then 4 + utf8ByteLength rest2
        else 3 + utf8ByteLength (c2 :: rest2)
      | [] => 3
    else 3 + utf8ByteLength rest

/-- Concrete UUID bytes used in witnesses and counterexamples. -/
def uuidW : List Nat := List.range 16

/-- Concrete digest bytes used in witnesses and counterexamples. -/
def digestW : List Nat := List.replicate 32 0

/-- A concrete JSON-parse oracle for witnesses: reads the decimal digits of
the payload as the acknowledged sequence number, and extracts the Output
field of the channel_closed payloads used in the witnesses. -/
def envW : JsonEnv :=
  { ackSeq := fun p =>
      (p.filter fun c => decide (48 ≤ c ∧ c ≤ 57)).foldl (fun a d => a * 10 + (d : Int) - 48) 0,
    outField := fun p => (p.drop 11).take ((p.drop 11).length - 2) }

/-- A paused session that has recorded acknowledgment 4 and advanced its
outgoing counter, used to witness resume resynchronisation. -/
def sessionPausedAt4 : AWSSSMSession :=
  { sessionStart with
      outgoingSequenceNumber := 9
      paused := true
      lastAcknowledgedSequenceNumber := some 4 }

/-- Code units of the acknowledge payload naming sequence number 5. -/
def pAck5 : List Nat :=
  [123, 34, 65, 99, 107, 110, 111, 119, 108, 101, 100, 103, 101, 100, 77, 101, 115, 115,
   97, 103, 101, 83, 101, 113, 117, 101, 110, 99, 101, 78, 117, 109, 98, 101, 114, 34, 58, 53, 125]

/-- Code units of the acknowledge payload naming sequence number 3. -/
def pAck3 : List Nat :=
  [123, 34, 65, 99, 107, 110, 111, 119, 108, 101, 100, 103, 101, 100, 77, 101, 115, 115,
   97, 103, 101, 83, 101, 113, 117, 101, 110, 99, 101, 78, 117, 109, 98, 101, 114, 34, 58, 51, 125]

/-- Code units of the acknowledge payload naming sequence number 8. -/
def pAck8 : List Nat :=
  [123, 34, 65, 99, 107, 110, 111, 119, 108, 101, 100, 103, 101, 100, 77, 101, 115, 115,
   97, 103, 101, 83, 101, 113, 117, 101, 110, 99, 101, 78, 117, 109, 98, 101, 114, 34, 58, 56, 125]

/-- Code units of the channel_closed payload with Output done. -/
def pOutDone : List Nat :=
  [123, 34, 79, 117, 116, 112, 117, 116, 34, 58, 34, 100, 111, 110, 101, 34, 125]

/-- Code units of the channel_closed payload with empty Output. -/
def pOutEmpty : List Nat :=
  [123, 34, 79, 117, 116, 112, 117, 116, 34, 58, 34, 34, 125]

/-! ## Theorems -/

@[simp]
theorem be4_length (v : Nat) : (be4 v).length = 4 := rfl

theorem paddedType_length (mt : List Nat) (h : mt.length ≤ 32) :
    (paddedType mt).length = 32 := by
  simp [paddedType]
  omega

theorem setAt_append_ge (xs ys src : List Nat) (off : Nat) (h : xs.length ≤ off) :
    setAt (xs ++ ys) off src = xs ++ setAt ys (off - xs.length) src := by
  unfold setAt
  rw [List.take_append_eq_append_take, List.take_of_length_le h,
    List.drop_append_eq_append_drop, List.drop_of_length_le (by omega),
    show off + src.length - xs.length = off - xs.length + src.length from by omega]
  simp only [List.nil_append, List.append_assoc]

theorem setAt_exact (xs ys src : List Nat) (h : src.length = xs.length) :
    setAt (xs ++ ys) 0 src = src ++ ys := by
  unfold setAt
  rw [List.take_zero, Nat.zero_add, h, List.drop_left]
  simp

theorem setAt_full (l src : List Nat) (h : src.length = l.length) :
    setAt l 0 src = src := by
  unfold setAt
  rw [List.take_zero, Nat.zero_add, h, List.drop_length]
  simp

theorem putString_pad (value : List Nat) :
    ∀ n, value.length ≤ n →
      ((List.range n).map fun i => if value.length ≤ i then 32 else value.getD i 0 % 256) =
        value.map (fun c => c % 256) ++ List.replicate (n - value.length) 32 := by
  induction value with
  | nil =>
    intro n _
    simp
  | cons a tl ih =>
    intro n hn
    obtain ⟨m, rfl⟩ : ∃ m, n = m + 1 := ⟨n - 1, by simp at hn; omega⟩
    rw [List.range_succ_eq_map]
    simp only [List.map_cons, List.map_map]
    rw [show ((fun i => if (a :: tl).length ≤ i then 32 else (a :: tl).getD i 0 % 256) ∘ Nat.succ) =
      (fun i => if tl.length ≤ i then 32 else tl.getD i 0 % 256) from by
        funext i
        simp only [Function.comp_apply, List.length_cons, List.getD_cons_succ,
          Nat.succ_eq_add_one, Nat.add_le_add_iff_right]]
    rw [ih m (by simp at hn; omega)]
    simp only [List.length_cons, List.getD_cons_zero, List.map_cons]
    rw [if_neg (by omega)]
    simp [Nat.succ_sub_succ]

theorem putString_eq (buffer : List Nat) (start stop : Nat) (value : List Nat)
    (h : value.length ≤ stop - start) :
    putString buffer start stop value =
      some (setAt buffer start
        (value.map (fun c => c % 256) ++ List.replicate (stop - start - value.length) 32)) := by
  unfold putString
  rw [if_neg (by omega), putString_pad value (stop - start) h]

theorem encode_eq (mt payload uuid digest : List Nat) (seq pt now : Nat)
    (hmt : mt.length ≤ 32) (hu : uuid.length = 16) (hd : digest.length = 32) :
    encode ⟨mt, seq, pt, payload⟩ uuid digest now =
      some (encodedBytes mt seq pt now uuid digest payload) := by
  have hsplit : List.replicate (116 + payload.length + 4) (0 : Nat) =
      List.replicate 4 0 ++ (List.replicate 32 0 ++ (List.replicate 4 0 ++
      (List.replicate 4 0 ++ (List.replicate 4 0 ++ (List.replicate 4 0 ++
      (List.replicate 4 0 ++ (List.replicate 4 0 ++ (List.replicate 4 0 ++
      (List.replicate 16 0 ++ (List.replicate 32 0 ++ (List.replicate 4 0 ++
      (List.replicate 4 0 ++ List.replicate payload.length 0)))))))))))) := by
    simp only [← List.replicate_add]
    congr 1
    omega
  unfold encode
  simp only []
  rw [putString_eq _ _ _ _ (by simpa using hmt)]
  rw [Option.some_bind]
  rw [putString_eq _ _ _ _ (by omega)]
  rw [show (116 + payload.length + 4) - 120 - payload.length = 0 from by omega,
    show (36 : Nat) - 4 = 32 from by norm_num]
  unfold encodedBytes paddedType
  generalize hM : mt.map (fun c => c % 256) ++ List.replicate (32 - mt.length) 32 = M
  have hMlen : M.length = 32 := by
    rw [← hM]
    simp only [List.length_append, List.length_map, List.length_replicate]
    omega
  unfold putLong putInt
  rw [hsplit]
  simp only [Option.some.injEq, List.replicate_zero, List.append_nil,
    setAt_append_ge, setAt_exact, setAt_full, hMlen, hu, hd, be4_length,
    List.length_replicate, List.length_map, Nat.reduceSub, Nat.reduceAdd, Nat.reduceLeDiff]
  simp [List.append_assoc]

theorem sliceNat_append_ge (xs ys : List Nat) (s e : Nat) (hs : xs.length ≤ s)
    (he : xs.length ≤ e) :
    sliceNat (xs ++ ys) s e = sliceNat ys (s - xs.length) (e - xs.length) := by
  unfold sliceNat
  rw [List.take_append_eq_append_take, List.take_of_length_le he,
    List.drop_append_eq_append_drop, List.drop_of_length_le (by omega)]
  simp

theorem sliceNat_zero (xs ys : List Nat) (e : Nat) (h : xs.length = e) :
    sliceNat (xs ++ ys) 0 e = xs := by
  unfold sliceNat
  rw [← h, List.take_left, List.drop_zero]

theorem sliceNat_zero2 (xs ys zs : List Nat) (e : Nat) (h : xs.length + ys.length = e) :
    sliceNat (xs ++ (ys ++ zs)) 0 e = xs ++ ys := by
  unfold sliceNat
  rw [List.drop_zero, ← List.append_assoc, List.take_left' (by simp [h])]

theorem drop_append_ge (xs ys : List Nat) (n : Nat) (h : xs.length ≤ n) :
    (xs ++ ys).drop n = ys.drop (n - xs.length) := by
  rw [List.drop_append_eq_append_drop, List.drop_of_length_le h, List.nil_append]

theorem encodedBytes_length (mt payload uuid digest : List Nat) (seq pt now : Nat)
    (hmt : mt.length ≤ 32) (hu : uuid.length = 16) (hd : digest.length = 32) :
    (encodedBytes mt seq pt now uuid digest payload).length = 120 + payload.length := by
  unfold encodedBytes
  simp [paddedType_length mt hmt, hu, hd]
  omega

theorem clampIdx_ofNat (k n : Nat) : clampIdx (k : Int) n = min k n := by
  simp [clampIdx]

section Extraction

variable (mt payload uuid digest : List Nat) (seq pt now : Nat)

theorem EB_slice_hl :
    sliceNat (encodedBytes mt seq pt now uuid digest payload) 0 4 = be4 116 := by
  unfold encodedBytes
  exact sliceNat_zero _ _ _ (be4_length 116)

theorem EB_slice_type (hmt : mt.length ≤ 32) :
    sliceNat (encodedBytes mt seq pt now uuid digest payload) 4 36 = paddedType mt := by
  unfold encodedBytes
  simp only [List.append_assoc]
  simp only [sliceNat_append_ge, sliceNat_zero, sliceNat_zero2, be4_length, List.length_append,
    List.length_replicate, paddedType_length mt hmt, Nat.reduceSub, Nat.reduceAdd,
    Nat.reduceLeDiff]

theorem EB_slice_seq (hmt : mt.length ≤ 32) :
    sliceNat (encodedBytes mt seq pt now uuid digest payload) 48 56 =
      List.replicate 4 0 ++ be4 seq := by
  unfold encodedBytes
  simp only [List.append_assoc]
  simp only [sliceNat_append_ge, sliceNat_zero, sliceNat_zero2, be4_length, List.length_append,
    List.length_replicate, paddedType_length mt hmt, Nat.reduceSub, Nat.reduceAdd,
    Nat.reduceLeDiff]

theorem EB_slice_uuid (hmt : mt.length ≤ 32) (hu : uuid.length = 16) :
    sliceNat (encodedBytes mt seq pt now uuid digest payload) 64 80 = uuid := by
  unfold encodedBytes
  simp only [List.append_assoc]
  simp only [sliceNat_append_ge, sliceNat_zero, sliceNat_zero2, be4_length, List.length_append,
    List.length_replicate, paddedType_length mt hmt, hu, Nat.reduceSub, Nat.reduceAdd,
    Nat.reduceLeDiff]

theorem EB_slice_pt (hmt : mt.length ≤ 32) (hu : uuid.length = 16) (hd : digest.length = 32) :
    sliceNat (encodedBytes mt seq pt now uuid digest payload) 112 116 = be4 pt := by
  unfold encodedBytes
  simp only [List.append_assoc]
  simp only [sliceNat_append_ge, sliceNat_zero, sliceNat_zero2, be4_length, List.length_append,
    List.length_replicate, paddedType_length mt hmt, hu, hd, Nat.reduceSub, Nat.reduceAdd,
    Nat.reduceLeDiff]

theorem EB_slice_paylen (hmt : mt.length ≤ 32) (hu : uuid.length = 16)
    (hd : digest.length = 32) :
    sliceNat (encodedBytes mt seq pt now uuid digest payload) 116 120 =
      be4 payload.length := by
  unfold encodedBytes
  simp only [List.append_assoc]
  simp only [sliceNat_append_ge, sliceNat_zero, sliceNat_zero2, be4_length, List.length_append,
    List.length_replicate, paddedType_length mt hmt, hu, hd, Nat.reduceSub, Nat.reduceAdd,
    Nat.reduceLeDiff]

theorem EB_drop_payload (hmt : mt.length ≤ 32) (hu : uuid.length = 16)
    (hd : digest.length = 32) :
    (encodedBytes mt seq pt now uuid digest payload).drop 120 =
      payload.map (fun c => c % 256) := by
  unfold encodedBytes
  simp only [List.append_assoc]
  simp only [drop_append_ge, be4_length, List.length_append, List.length_replicate,
    paddedType_length mt hmt, hu, hd, Nat.reduceSub, Nat.reduceAdd, Nat.reduceLeDiff,
    List.drop_zero]

end Extraction

theorem toInt32_of_range (x : Int) (h1 : 0 ≤ x) (h2 : x < 2147483648) :
    toInt32 x = x := by
  unfold toInt32
  rw [Int.emod_eq_of_lt h1 (by omega)]
  simp only []
  rw [if_pos h2]

theorem decodeIntStep_small (acc : Int) (b : Nat) (h1 : 0 ≤ acc)
    (h2 : acc < 8388608) :
    decodeIntStep acc b = acc * 256 + b := by
  unfold decodeIntStep
  have h := toInt32_of_range (acc * 256) (by omega) (by omega)
  rw [h]

theorem foldl4 (b0 b1 b2 b3 : Nat) (h0 : b0 < 128) (h1 : b1 < 256) (h2 : b2 < 256)
    (h3 : b3 < 256) :
    List.foldl decodeIntStep 0 [b0, b1, b2, b3] =
      (((b0 : Int) * 256 + b1) * 256 + b2) * 256 + b3 := by
  rw [List.foldl_cons, List.foldl_cons, List.foldl_cons, List.foldl_cons, List.foldl_nil]
  have s0 := decodeIntStep_small 0 b0 (by omega) (by omega)
  rw [s0, show (0 : Int) * 256 + (b0 : Int) = (b0 : Int) from by ring]
  have s1 := decodeIntStep_small (b0 : Int) b1 (by omega) (by omega)
  rw [s1]
  have s2 := decodeIntStep_small ((b0 : Int) * 256 + (b1 : Int)) b2 (by omega) (by omega)
  rw [s2]
  have s3 := decodeIntStep_small (((b0 : Int) * 256 + (b1 : Int)) * 256 + (b2 : Int)) b3
    (by omega) (by omega)
  rw [s3]

theorem decodeInt_be4 (v : Nat) (hv : v < 2147483648) :
    (be4 v).foldl decodeIntStep 0 = (v : Int) := by
  have h32 : v % 4294967296 = v := Nat.mod_eq_of_lt (by omega)
  unfold be4
  rw [h32]
  rw [foldl4 _ _ _ _ (by omega) (by omega) (by omega) (by omega)]
  push_cast
  omega

theorem decodeInt_long (v : Nat) (hv : v < 2147483648) :
    (List.replicate 4 0 ++ be4 v).foldl decodeIntStep 0 = (v : Int) := by
  have h0 : (List.replicate 4 0 ++ be4 v).foldl decodeIntStep 0 =
      (be4 v).foldl decodeIntStep 0 := by
    simp [List.replicate, decodeIntStep, toInt32]
  rw [h0, decodeInt_be4 v hv]

theorem utf8Dec_ascii (l : List Nat) (h : ∀ c ∈ l, c ≤ 127) : utf8Dec l = l := by
  induction l with
  | nil => rfl
  | cons b rest ih =>
    rw [utf8Dec.eq_def]
    simp only []
    rw [if_pos (h b (List.mem_cons_self b rest))]
    rw [ih fun c hc => h c (List.mem_cons_of_mem b hc)]

theorem utf16OfCps_bmp (l : List Nat) (h : ∀ c ∈ l, c < 65536) : utf16OfCps l = l := by
  induction l with
  | nil => rfl
  | cons b rest ih =>
    unfold utf16OfCps at ih ⊢
    rw [List.flatMap_cons, if_pos (h b (List.mem_cons_self b rest)),
      ih fun c hc => h c (List.mem_cons_of_mem b hc)]
    rfl

theorem stripNul_id (l : List Nat) (h : ∀ c ∈ l, c ≠ 0) : stripNul l = l := by
  unfold stripNul
  rw [List.filter_eq_self]
  intro a ha
  simpa using h a ha

theorem map_mod_id (l : List Nat) (h : ∀ c ∈ l, c < 256) :
    l.map (fun c => c % 256) = l := by
  induction l with
  | nil => rfl
  | cons b rest ih =>
    rw [List.map_cons, Nat.mod_eq_of_lt (h b (List.mem_cons_self b rest)),
      ih fun c hc => h c (List.mem_cons_of_mem b hc)]

/-- ASCII bytes (at most 127, NUL-free) pass through the whole
`decodeText` pipeline unchanged once sliced. -/
theorem textPipeline_ascii (l : List Nat) (h : ∀ c ∈ l, 1 ≤ c ∧ c ≤ 127) :
    stripNul (utf16OfCps (utf8Dec l)) = l := by
  rw [utf8Dec_ascii l fun c hc => (h c hc).2,
    utf16OfCps_bmp l fun c hc => by have := (h c hc).2; omega,
    stripNul_id l fun c hc => by have := (h c hc).1; omega]

theorem dropWhile_replicate_ws (r : List Nat) (n : Nat) :
    List.dropWhile isJsWs (List.replicate n 32 ++ r) = List.dropWhile isJsWs r := by
  induction n with
  | zero => rfl
  | succ m ih =>
    rw [List.replicate_succ, List.cons_append, List.dropWhile_cons, if_pos (by decide)]
    exact ih

theorem jsTrimEnd_pad (l : List Nat) (n : Nat) :
    jsTrimEnd (l ++ List.replicate n 32) = jsTrimEnd l := by
  unfold jsTrimEnd
  rw [List.reverse_append, List.reverse_replicate, dropWhile_replicate_ws]

theorem jsTrimEnd_of_last_not_ws (l : List Nat)
    (h : ∀ x, l.getLast? = some x → isJsWs x = false) : jsTrimEnd l = l := by
  unfold jsTrimEnd
  match hr : l.reverse with
  | [] =>
    simp only [List.dropWhile_nil]
    rw [← hr, List.reverse_reverse]
  | a :: t =>
    have ha : l.getLast? = some a := by
      rw [← List.head?_reverse, hr]
      rfl
    rw [List.dropWhile_cons, if_neg (by rw [h a ha]; simp)]
    rw [← hr, List.reverse_reverse]

set_option maxRecDepth 4000 in
theorem hexPair_length : ∀ b < 256, (padStart2 (hexStr b)).length = 2 := by decide

set_option maxRecDepth 4000 in
theorem hexPair_hex : ∀ b < 256, ∀ c ∈ padStart2 (hexStr b), isHexCode c = true := by decide

theorem foldl_append_hex (l : List Nat) :
    ∀ acc : List Nat, l.foldl (fun s b => s ++ padStart2 (hexStr b)) acc =
      acc ++ l.flatMap (fun b => padStart2 (hexStr b)) := by
  induction l with
  | nil => intro acc; simp
  | cons b rest ih =>
    intro acc
    rw [List.foldl_cons, ih, List.flatMap_cons, List.append_assoc]

theorem longToHex_eq (l : List Nat) :
    longToHex l = l.flatMap (fun b => padStart2 (hexStr b)) := by
  unfold longToHex
  rw [foldl_append_hex, List.nil_append]

theorem longToHex_length (l : List Nat) (h : ∀ b ∈ l, b < 256) :
    (longToHex l).length = 2 * l.length := by
  rw [longToHex_eq]
  induction l with
  | nil => rfl
  | cons b rest ih =>
    rw [List.flatMap_cons, List.length_append,
      hexPair_length b (h b (List.mem_cons_self b rest)),
      ih fun x hx => h x (List.mem_cons_of_mem b hx)]
    simp only [List.length_cons]
    ring

theorem longToHex_hex (l : List Nat) (h : ∀ b ∈ l, b < 256) :
    ∀ c ∈ longToHex l, isHexCode c = true := by
  rw [longToHex_eq]
  intro c hc
  rw [List.mem_flatMap] at hc
  obtain ⟨b, hb, hcb⟩ := hc
  exact hexPair_hex b (h b hb) c hcb

theorem sliceNat_zero_start (l : List Nat) (e : Nat) : sliceNat l 0 e = l.take e := by
  unfold sliceNat
  rw [List.drop_zero]

/-- On a buffer whose MessageId field holds exactly the 16 bytes `uuid`,
`decodeUuid` produces the canonical string of the half-swapped bytes. -/
theorem decodeUuid_swap (buffer uuid : List Nat)
    (hslice : sliceNat buffer 64 80 = uuid) (hu : uuid.length = 16) :
    decodeUuid buffer 64 80 = uuidCanonicalStr (uuid.drop 8 ++ uuid.take 8) := by
  unfold decodeUuid uuidCanonicalStr
  simp only []
  rw [hslice, sliceNat_zero_start]
  rw [show sliceNat uuid 8 16 = uuid.drop 8 from by
    unfold sliceNat
    rw [List.take_of_length_le (by omega)]]
  rw [show (uuid.drop 8 ++ uuid.take 8).flatMap (fun b => padStart2 (hexStr b)) =
    longToHex (uuid.drop 8) ++ longToHex (uuid.take 8) from by
      rw [List.flatMap_append, longToHex_eq, longToHex_eq]]

theorem uuidCanonical_valid (bytes : List Nat) (hlen : bytes.length = 16)
    (hb : ∀ b ∈ bytes, b < 256) : validUuidString (uuidCanonicalStr bytes) := by
  unfold uuidCanonicalStr
  simp only []
  have hraw : (bytes.flatMap fun b => padStart2 (hexStr b)).length = 32 := by
    rw [← longToHex_eq, longToHex_length bytes hb, hlen]
  have hhex : ∀ c ∈ bytes.flatMap fun b => padStart2 (hexStr b), isHexCode c = true := by
    rw [← longToHex_eq]
    exact longToHex_hex bytes hb
  refine ⟨_, _, _, _, _, rfl, ?_, ?_, ?_, ?_, ?_, ?_, ?_, ?_, ?_, ?_⟩
  · simp [substr, hraw]
  · simp [substr, hraw]
  · simp [substr, hraw]
  · simp [substr, hraw]
  · simp [hraw]
  · intro c hc
    exact hhex c (List.drop_subset _ _ (List.take_subset _ _ hc))
  · intro c hc
    exact hhex c (List.drop_subset _ _ (List.take_subset _ _ hc))
  · intro c hc
    exact hhex c (List.drop_subset _ _ (List.take_subset _ _ hc))
  · intro c hc
    exact hhex c (List.drop_subset _ _ (List.take_subset _ _ hc))
  · intro c hc
    exact hhex c (List.drop_subset _ _ hc)

theorem clampIdx_nonneg (i : Int) (n : Nat) (h : 0 ≤ i) :
    clampIdx i n = min i.toNat n := by
  unfold clampIdx
  rw [if_neg (by omega)]

section DecodeEncode

variable (mt payload uuid digest : List Nat) (seq pt now : Nat)

theorem decode_hl (hmt : mt.length ≤ 32) :
    decodeInt (encodedBytes mt seq pt now uuid digest payload) 0 4 = 116 := by
  unfold decodeInt
  rw [EB_slice_hl]
  decide

theorem decode_type (hmt : mt.length ≤ 32) (hmtA : ∀ c ∈ mt, 1 ≤ c ∧ c ≤ 127)
    (hmtL : ∀ x, mt.getLast? = some x → isJsWs x = false)
    (hu : uuid.length = 16) (hd : digest.length = 32) :
    jsTrimEnd (decodeText (encodedBytes mt seq pt now uuid digest payload) 4 (some 36)) =
      mt := by
  have hlen := encodedBytes_length mt payload uuid digest seq pt now hmt hu hd
  unfold decodeText jsSlice
  simp only []
  rw [clampIdx_nonneg 4 _ (by norm_num), clampIdx_nonneg 36 _ (by norm_num)]
  rw [show ((4 : Int).toNat) = 4 from rfl, show ((36 : Int).toNat) = 36 from rfl, hlen]
  rw [Nat.min_eq_left (by omega), Nat.min_eq_left (by omega)]
  rw [EB_slice_type mt payload uuid digest seq pt now hmt]
  unfold paddedType
  rw [map_mod_id mt fun c hc => by have := (hmtA c hc).2; omega]
  rw [textPipeline_ascii _ (by
    intro c hc
    rcases List.mem_append.mp hc with h | h
    · exact hmtA c h
    · have hc32 := List.eq_of_mem_replicate h
      subst hc32
      exact ⟨by omega, by omega⟩)]
  rw [jsTrimEnd_pad, jsTrimEnd_of_last_not_ws mt hmtL]

theorem decode_seq (hmt : mt.length ≤ 32) (hseq : seq < 2147483648) :
    decodeInt (encodedBytes mt seq pt now uuid digest payload) 48 56 = (seq : Int) := by
  unfold decodeInt
  rw [EB_slice_seq mt payload uuid digest seq pt now hmt, decodeInt_long seq hseq]

theorem decode_pt (hmt : mt.length ≤ 32) (hu : uuid.length = 16) (hd : digest.length = 32)
    (hpt : pt < 2147483648) :
    decodeInt (encodedBytes mt seq pt now uuid digest payload) 112 116 = (pt : Int) := by
  unfold decodeInt
  rw [EB_slice_pt mt payload uuid digest seq pt now hmt hu hd, decodeInt_be4 pt hpt]

theorem decode_mid (hmt : mt.length ≤ 32) (hu : uuid.length = 16) :
    decodeUuid (encodedBytes mt seq pt now uuid digest payload) 64 80 =
      uuidCanonicalStr (uuid.drop 8 ++ uuid.take 8) :=
  decodeUuid_swap _ uuid (EB_slice_uuid mt payload uuid digest seq pt now hmt hu) hu

theorem decode_payload (hmt : mt.length ≤ 32) (hu : uuid.length = 16)
    (hd : digest.length = 32) (hpay : ∀ c ∈ payload, 1 ≤ c ∧ c ≤ 127) :
    decodeText (encodedBytes mt seq pt now uuid digest payload) (116 + 4) none = payload := by
  have hlen := encodedBytes_length mt payload uuid digest seq pt now hmt hu hd
  unfold decodeText jsSlice
  simp only []
  rw [show ((116 : Int) + 4) = 120 from by norm_num]
  rw [clampIdx_nonneg 120 _ (by norm_num)]
  rw [show ((120 : Int).toNat) = 120 from rfl, hlen]
  rw [Nat.min_eq_left (by omega)]
  rw [show sliceNat (encodedBytes mt seq pt now uuid digest payload) 120
      (120 + payload.length) =
      (encodedBytes mt seq pt now uuid digest payload).drop 120 from by
    unfold sliceNat
    rw [← hlen, List.take_length]]
  rw [EB_drop_payload mt payload uuid digest seq pt now hmt hu hd]
  rw [map_mod_id payload fun c hc => by have := (hpay c hc).2; omega]
  exact textPipeline_ascii payload hpay

/-- Decoding a buffer produced by `encode`: the four caller-supplied fields
come back unchanged (under the ASCII/range side conditions), and the
MessageId is the canonical rendering of the half-swapped UUID bytes. -/
theorem decode_encodedBytes (hmt : mt.length ≤ 32) (hmtA : ∀ c ∈ mt, 1 ≤ c ∧ c ≤ 127)
    (hmtL : ∀ x, mt.getLast? = some x → isJsWs x = false)
    (hseq : seq < 2147483648) (hpt : pt < 2147483648)
    (hpay : ∀ c ∈ payload, 1 ≤ c ∧ c ≤ 127)
    (hu : uuid.length = 16) (hd : digest.length = 32) :
    decode (encodedBytes mt seq pt now uuid digest payload) =
      { MessageType := mt, SequenceNumber := (seq : Int),
        MessageId := uuidCanonicalStr (uuid.drop 8 ++ uuid.take 8),
        PayloadType := (pt : Int), Payload := payload } := by
  unfold decode
  simp only []
  rw [decode_hl mt payload uuid digest seq pt now hmt]
  simp only [AgentMessage.mk.injEq]
  refine ⟨?_, ?_, ?_, ?_, ?_⟩
  · exact decode_type mt payload uuid digest seq pt now hmt hmtA hmtL hu hd
  · exact decode_seq mt payload uuid digest seq pt now hmt hseq
  · exact decode_mid mt payload uuid digest seq pt now hmt hu
  · exact decode_pt mt payload uuid digest seq pt now hmt hu hd hpt
  · exact decode_payload mt payload uuid digest seq pt now hmt hu hd hpay

end DecodeEncode

theorem mapGet_mapSet (mp : List (List Nat × List Nat)) (k v : List Nat) :
    mapGet (mapSet mp k v) k = some v := by
  induction mp with
  | nil => simp [mapSet, mapGet]
  | cons p rest ih =>
    obtain ⟨k0, v0⟩ := p
    unfold mapSet
    by_cases hk : k0 = k
    · rw [if_pos hk]
      unfold mapGet
      rw [if_pos hk]
    · rw [if_neg hk]
      unfold mapGet
      rw [if_neg hk]
      exact ih

theorem sliceNat_nil_of_le (l : List Nat) (s e : Nat) (h : l.length ≤ s) :
    sliceNat l s e = [] := by
  unfold sliceNat
  apply List.drop_eq_nil_of_le
  simp only [List.length_take]
  omega

set_option maxRecDepth 8000 in
/-- C1, counterexample to the claim as stated: the payload is arbitrary
UTF-8 text, yet a payload consisting of the single NUL character does not
survive `decode(encode(m))` — `decodeText` strips NULs, so the decoded
payload is empty. -/
theorem claim_C1_counterexample :
    (encode ⟨strInputStreamData, 0, 1, [0]⟩ uuidW digestW 0).map
      (fun b => (decode b).Payload) ≠ some [0] := by decide

/-- C1 (amended): for a message whose type tag is at most 32 non-NUL ASCII
code units not ending in white space, whose sequence number and payload type
are below 2^31, and whose payload consists of non-NUL ASCII code units,
`decode(encode(m))` reproduces messageType, sequenceNumber, payloadType and
payload exactly, and the decoded MessageId is a syntactically valid
8-4-4-4-12 hex UUID string generated inside `encode`, not supplied by the
caller (`EncodeableAgentMessage` has no MessageId field). -/
theorem claim_C1_round_trip (mt payload uuid digest : List Nat) (seq pt now : Nat)
    (hmt : mt.length ≤ 32) (hmtA : ∀ c ∈ mt, 1 ≤ c ∧ c ≤ 127)
    (hmtL : isJsWs (mt.getLast?.getD 0) = false)
    (hseq : seq < 2147483648) (hpt : pt < 2147483648)
    (hpay : ∀ c ∈ payload, 1 ≤ c ∧ c ≤ 127)
    (hu : uuid.length = 16) (hub : ∀ x ∈ uuid, x < 256) (hd : digest.length = 32) :
    ∃ buf, encode ⟨mt, seq, pt, payload⟩ uuid digest now = some buf ∧
      (decode buf).MessageType = mt ∧
      (decode buf).SequenceNumber = (seq : Int) ∧
      (decode buf).PayloadType = (pt : Int) ∧
      (decode buf).Payload = payload ∧
      validUuidString (decode buf).MessageId := by
  refine ⟨encodedBytes mt seq pt now uuid digest payload,
    encode_eq mt payload uuid digest seq pt now hmt hu hd, ?_⟩
  rw [decode_encodedBytes mt payload uuid digest seq pt now hmt hmtA
    (fun x hx => by rw [hx] at hmtL; simpa using hmtL) hseq hpt hpay hu hd]
  refine ⟨rfl, rfl, rfl, rfl, ?_⟩
  apply uuidCanonical_valid
  · simp only [List.length_append, List.length_drop, List.length_take, hu]
    omega
  · intro x hx
    rcases List.mem_append.mp hx with h | h
    · exact hub x (List.drop_subset _ _ h)
    · exact hub x (List.take_subset _ _ h)

/-- C1 witness: the amended round trip at a concrete message. -/
theorem claim_C1_witness :
    ∃ buf, encode ⟨strInputStreamData, 7, 1, [104, 105]⟩ uuidW digestW 99 = some buf ∧
      (decode buf).MessageType = strInputStreamData ∧
      (decode buf).SequenceNumber = ((7 : Nat) : Int) ∧
      (decode buf).PayloadType = ((1 : Nat) : Int) ∧
      (decode buf).Payload = [104, 105] ∧
      validUuidString (decode buf).MessageId :=
  claim_C1_round_trip strInputStreamData [104, 105] uuidW digestW 7 1 99
    (by decide) (by decide) (by decide) (by decide) (by decide) (by decide)
    (by decide) (by decide) (by decide)

set_option maxRecDepth 8000 in
/-- C2, counterexample to the claim as stated: for the one-character payload
with code unit 233, the UTF-8 byte length is 2, but encode allocates
120 + 1 = 121 bytes (it counts UTF-16 code units, not UTF-8 bytes). -/
theorem claim_C2_counterexample :
    (encode ⟨strInputStreamData, 0, 1, [233]⟩ uuidW digestW 0).map List.length ≠
      some (120 + utf8ByteLength [233]) := by decide

/-- C2 (amended): encode allocates exactly 120 bytes plus the number of
UTF-16 CODE UNITS of the payload, writes that code-unit count into the
PayloadLength field (bytes 116..120, big-endian), and writes the low byte of
each code unit verbatim after the header — for ASCII payloads this coincides
with the UTF-8 byte length and UTF-8 bytes of the claim. -/
theorem claim_C2_layout (mt payload uuid digest : List Nat) (seq pt now : Nat)
    (hmt : mt.length ≤ 32) (hu : uuid.length = 16) (hd : digest.length = 32) :
    ∃ buf, encode ⟨mt, seq, pt, payload⟩ uuid digest now = some buf ∧
      buf.length = 120 + payload.length ∧
      sliceNat buf 116 120 = be4 payload.length ∧
      buf.drop 120 = payload.map (fun c => c % 256) :=
  ⟨encodedBytes mt seq pt now uuid digest payload,
    encode_eq mt payload uuid digest seq pt now hmt hu hd,
    encodedBytes_length mt payload uuid digest seq pt now hmt hu hd,
    EB_slice_paylen mt payload uuid digest seq pt now hmt hu hd,
    EB_drop_payload mt payload uuid digest seq pt now hmt hu hd⟩

/-- C2 witness: the amended layout at a concrete message. -/
theorem claim_C2_witness :
    ∃ buf, encode ⟨strInputStreamData, 7, 1, [104, 233]⟩ uuidW digestW 99 = some buf ∧
      buf.length = 120 + [104, 233].length ∧
      sliceNat buf 116 120 = be4 [104, 233].length ∧
      buf.drop 120 = [104, 233].map (fun c => c % 256) :=
  claim_C2_layout strInputStreamData [104, 233] uuidW digestW 7 1 99
    (by decide) (by decide) (by decide)

set_option maxRecDepth 8000 in
/-- C3, counterexample to the claim as stated: encode writes the generated
UUID bytes 0,1,...,15 in canonical order, but decode does NOT reconstruct
the canonical hex string of that UUID — it returns the two 8-byte halves
swapped. -/
theorem claim_C3_counterexample :
    (encode ⟨strInputStreamData, 0, 1, []⟩ uuidW digestW 0).map
      (fun b => (decode b).MessageId) ≠ some (uuidCanonicalStr uuidW) := by decide

/-- C3 (amended): encode writes the 16 generated UUID bytes into the
MessageId field in canonical order (most-significant half first), but decode
interprets the field as least-significant half first, so the decoded
MessageId is the canonical 8-4-4-4-12 string of the HALF-SWAPPED byte
sequence, not of the generated UUID. -/
theorem claim_C3_uuid_packing (mt payload uuid digest : List Nat) (seq pt now : Nat)
    (hmt : mt.length ≤ 32) (hu : uuid.length = 16) (hd : digest.length = 32) :
    ∃ buf, encode ⟨mt, seq, pt, payload⟩ uuid digest now = some buf ∧
      sliceNat buf 64 80 = uuid ∧
      (decode buf).MessageId = uuidCanonicalStr (uuid.drop 8 ++ uuid.take 8) :=
  ⟨encodedBytes mt seq pt now uuid digest payload,
    encode_eq mt payload uuid digest seq pt now hmt hu hd,
    EB_slice_uuid mt payload uuid digest seq pt now hmt hu,
    decode_mid mt payload uuid digest seq pt now hmt hu⟩

/-- C3 witness: the amended packing statement at a concrete message. -/
theorem claim_C3_witness :
    ∃ buf, encode ⟨strInputStreamData, 7, 1, [104]⟩ uuidW digestW 99 = some buf ∧
      sliceNat buf 64 80 = uuidW ∧
      (decode buf).MessageId = uuidCanonicalStr (uuidW.drop 8 ++ uuidW.take 8) :=
  claim_C3_uuid_packing strInputStreamData [104] uuidW digestW 7 1 99
    (by decide) (by decide) (by decide)

/-- C9: a message type longer than 32 code units (each written as one byte
of the 32-byte slot) makes encode fail with the length-violation error and
produce no buffer. -/
theorem claim_C9_oversize (m : EncodeableAgentMessage) (uuid digest : List Nat)
    (now : Nat) (h : 32 < m.MessageType.length) :
    encode m uuid digest now = none := by
  unfold encode putString
  simp only []
  rw [if_pos (by omega)]
  rfl

/-- C9 witness: a 33-character message type is rejected. -/
theorem claim_C9_witness :
    encode ⟨List.replicate 33 97, 0, 1, []⟩ uuidW digestW 0 = none :=
  claim_C9_oversize ⟨List.replicate 33 97, 0, 1, []⟩ uuidW digestW 0 (by decide)

/-- C10: decode is total by construction (all slices clamp to the buffer),
and on any byte buffer shorter than any header field it produces the
degenerate record: empty text fields, zero integer fields, and the
degenerate MessageId string consisting of four dashes. -/
theorem claim_C10_short_buffer (b : List Nat) (hb : ∀ x ∈ b, x < 256)
    (hlen : b.length ≤ 3) :
    decode b = ⟨[], 0, [45, 45, 45, 45], 0, []⟩ := by
  have hHL : 0 ≤ decodeInt b 0 4 ∧ decodeInt b 0 4 < 16777216 := by
    unfold decodeInt
    have hslice : sliceNat b 0 4 = b := by
      unfold sliceNat
      rw [List.take_of_length_le (by omega), List.drop_zero]
    rw [hslice]
    rcases b with _ | ⟨x, b1⟩
    · exact ⟨le_refl 0, by norm_num⟩
    rcases b1 with _ | ⟨y, b2⟩
    · have hx : x < 256 := hb x (by simp)
      rw [List.foldl_cons, List.foldl_nil, decodeIntStep_small 0 x (by omega) (by omega)]
      constructor <;> omega
    rcases b2 with _ | ⟨z, b3⟩
    · have hx : x < 256 := hb x (by simp)
      have hy : y < 256 := hb y (by simp)
      rw [List.foldl_cons, List.foldl_cons, List.foldl_nil,
        decodeIntStep_small 0 x (by omega) (by omega)]
      rw [show (0 : Int) * 256 + (x : Int) = (x : Int) from by ring]
      rw [decodeIntStep_small (x : Int) y (by omega) (by omega)]
      constructor <;> omega
    rcases b3 with _ | ⟨w, b4⟩
    · have hx : x < 256 := hb x (by simp)
      have hy : y < 256 := hb y (by simp)
      have hz : z < 256 := hb z (by simp)
      rw [List.foldl_cons, List.foldl_cons, List.foldl_cons, List.foldl_nil,
        decodeIntStep_small 0 x (by omega) (by omega)]
      rw [show (0 : Int) * 256 + (x : Int) = (x : Int) from by ring]
      rw [decodeIntStep_small (x : Int) y (by omega) (by omega)]
      rw [decodeIntStep_small ((x : Int) * 256 + (y : Int)) z (by omega) (by omega)]
      constructor <;> omega
    · exact absurd hlen (by simp)
  unfold decode
  simp only []
  simp only [AgentMessage.mk.injEq]
  refine ⟨?_, ?_, ?_, ?_, ?_⟩
  · unfold decodeText jsSlice
    simp only []
    rw [clampIdx_nonneg 4 _ (by norm_num)]
    rw [show ((4 : Int).toNat) = 4 from rfl]
    rw [Nat.min_eq_right (by omega)]
    rw [sliceNat_nil_of_le b b.length _ (le_refl b.length)]
    rfl
  · unfold decodeInt
    rw [sliceNat_nil_of_le b 48 56 (by omega)]
    rfl
  · unfold decodeUuid
    simp only []
    rw [sliceNat_nil_of_le b 64 80 (by omega)]
    rfl
  · unfold decodeInt
    rw [sliceNat_nil_of_le b 112 116 (by omega)]
    rfl
  · unfold decodeText jsSlice
    simp only []
    rw [clampIdx_nonneg (decodeInt b 0 4 + 4) _ (by omega)]
    rw [Nat.min_eq_right (by omega)]
    rw [sliceNat_nil_of_le b b.length _ (le_refl b.length)]
    rfl

/-- C10 witness: the empty buffer decodes to the degenerate record. -/
theorem claim_C10_witness :
    decode [] = ⟨[], 0, [45, 45, 45, 45], 0, []⟩ :=
  claim_C10_short_buffer [] (by decide) (by decide)

/-- C4: handling an acknowledge message carrying sequence number n updates
lastAcknowledgedSequenceNumber exactly when it is unset or strictly smaller
than n (no events, no frames, nothing else changes); and feeding the
sequence 5, 3, 8 from a fresh session leaves it at 8. -/
theorem claim_C4_ack_monotone :
    (∀ (env : JsonEnv) (s : AWSSSMSession) (m : AgentMessage) (n : Int),
      m.MessageType = strAcknowledge → m.Payload ≠ [] → env.ackSeq m.Payload = n →
      handleMessage env s m =
        ({ s with lastAcknowledgedSequenceNumber :=
            match s.lastAcknowledgedSequenceNumber with
            | none => some n
            | some v => if v < n then some n else some v }, [], [])) ∧
    (∀ (env : JsonEnv) (p1 p2 p3 : List Nat), p1 ≠ [] → p2 ≠ [] → p3 ≠ [] →
      env.ackSeq p1 = 5 → env.ackSeq p2 = 3 → env.ackSeq p3 = 8 →
      ((handleMessage env (handleMessage env (handleMessage env sessionStart
          ⟨strAcknowledge, 0, [], 1, p1⟩).1
          ⟨strAcknowledge, 0, [], 1, p2⟩).1
          ⟨strAcknowledge, 0, [], 1, p3⟩).1).lastAcknowledgedSequenceNumber = some 8) := by
  have gen : ∀ (env : JsonEnv) (s : AWSSSMSession) (m : AgentMessage) (n : Int),
      m.MessageType = strAcknowledge → m.Payload ≠ [] → env.ackSeq m.Payload = n →
      handleMessage env s m =
        ({ s with lastAcknowledgedSequenceNumber :=
            match s.lastAcknowledgedSequenceNumber with
            | none => some n
            | some v => if v < n then some n else some v }, [], []) := by
    intro env s m n hmt hp hn
    unfold handleMessage
    rw [hmt]
    rw [if_neg (by decide), if_neg (by decide), if_neg (by decide), if_pos rfl]
    rw [if_pos hp]
    simp only []
    rw [hn]
    rcases hs : s.lastAcknowledgedSequenceNumber with _ | v
    · rfl
    · simp only []
      by_cases hvn : v < n
      · rw [if_pos (by simpa using hvn), if_pos hvn]
      · rw [if_neg (by simpa using hvn), if_neg hvn, ← hs]
  have gen2 : ∀ (env : JsonEnv) (s : AWSSSMSession) (m : AgentMessage) (n : Int),
      m.MessageType = strAcknowledge → m.Payload ≠ [] → env.ackSeq m.Payload = n →
      (handleMessage env s m).1.lastAcknowledgedSequenceNumber =
        (match s.lastAcknowledgedSequenceNumber with
          | none => some n
          | some v => if v < n then some n else some v) := by
    intro env s m n h1 h2 h3
    rw [gen env s m n h1 h2 h3]
  refine ⟨gen, ?_⟩
  intro env p1 p2 p3 h1 h2 h3 e1 e2 e3
  rw [gen2 env _ _ 8 rfl h3 e3, gen2 env _ _ 3 rfl h2 e2, gen2 env _ _ 5 rfl h1 e1]
  rfl

/-- C4 witness: acknowledge payloads naming 5, 3, 8 leave the session with
lastAcknowledgedSequenceNumber 8. -/
theorem claim_C4_witness :
    ((handleMessage envW (handleMessage envW (handleMessage envW sessionStart
        ⟨strAcknowledge, 0, [], 1, pAck5⟩).1
        ⟨strAcknowledge, 0, [], 1, pAck3⟩).1
        ⟨strAcknowledge, 0, [], 1, pAck8⟩).1).lastAcknowledgedSequenceNumber = some 8 :=
  claim_C4_ack_monotone.2 envW pAck5 pAck3 pAck8 (by decide) (by decide) (by decide)
    (by decide) (by decide) (by decide)

/-- C5: a start_publication message resets outgoingSequenceNumber to the
recorded lastAcknowledgedSequenceNumber (0 when unset), clears paused, and
emits exactly one resume event, regardless of the prior state. -/
theorem claim_C5_resume (env : JsonEnv) (s : AWSSSMSession) (m : AgentMessage)
    (h : m.MessageType = strStartPublication) :
    handleMessage env s m =
      ({ s with
          outgoingSequenceNumber := s.lastAcknowledgedSequenceNumber.getD 0
          paused := false }, [SessionEvent.resume], []) := by
  unfold handleMessage
  rw [h]
  rw [if_neg (by decide), if_pos rfl]
  rcases hs : s.lastAcknowledgedSequenceNumber with _ | v
  · rfl
  · rfl

/-- C5 witness: with lastAcknowledgedSequenceNumber 4 recorded, a paused
session at outgoing sequence number 9 resumes at 4. -/
theorem claim_C5_witness :
    handleMessage envW sessionPausedAt4 ⟨strStartPublication, 0, [], 1, []⟩ =
      ({ sessionPausedAt4 with
          outgoingSequenceNumber := sessionPausedAt4.lastAcknowledgedSequenceNumber.getD 0
          paused := false }, [SessionEvent.resume], []) :=
  claim_C5_resume envW sessionPausedAt4 ⟨strStartPublication, 0, [], 1, []⟩ rfl

/-- C6: an output_stream_data frame whose MessageId is not yet in the output
map emits one output event and one acknowledgment frame, and records the
payload under the MessageId; feeding the SAME frame again emits no further
output event but sends a second acknowledgment frame, and the map still
holds the payload. -/
theorem claim_C6_dedup (env : JsonEnv) (s : AWSSSMSession) (m : AgentMessage)
    (h : m.MessageType = strOutputStreamData)
    (hnew : mapGet s.outputMap m.MessageId = none) :
    (handleMessage env s m).2.1 = [SessionEvent.output m.Payload] ∧
    (handleMessage env s m).2.2 =
      [acknowledgeMessage s m.MessageType m.MessageId m.SequenceNumber] ∧
    mapGet (handleMessage env s m).1.outputMap m.MessageId = some m.Payload ∧
    (handleMessage env (handleMessage env s m).1 m).2.1 = [] ∧
    (handleMessage env (handleMessage env s m).1 m).2.2.length = 1 ∧
    mapGet (handleMessage env (handleMessage env s m).1 m).1.outputMap m.MessageId =
      some m.Payload := by
  have e1 : handleMessage env s m =
      ({ s with outputMap := mapSet s.outputMap m.MessageId m.Payload },
        [SessionEvent.output m.Payload],
        [acknowledgeMessage s m.MessageType m.MessageId m.SequenceNumber]) := by
    unfold handleMessage
    rw [h, if_pos rfl, hnew]
    rfl
  have hseen : mapGet (mapSet s.outputMap m.MessageId m.Payload) m.MessageId =
      some m.Payload := mapGet_mapSet s.outputMap m.MessageId m.Payload
  have e2 : handleMessage env
      ({ s with outputMap := mapSet s.outputMap m.MessageId m.Payload }) m =
      ({ s with outputMap :=
          mapSet (mapSet s.outputMap m.MessageId m.Payload) m.MessageId m.Payload },
        [],
        [acknowledgeMessage
          ({ s with outputMap := mapSet s.outputMap m.MessageId m.Payload })
          m.MessageType m.MessageId m.SequenceNumber]) := by
    unfold handleMessage
    rw [h, if_pos rfl, hseen]
    rfl
  rw [e1]
  refine ⟨rfl, rfl, hseen, ?_, ?_, ?_⟩
  · rw [e2]
  · rw [e2]
    rfl
  · rw [e2]
    exact mapGet_mapSet _ m.MessageId m.Payload

/-- C6 witness: a concrete output frame handled twice from a fresh session. -/
theorem claim_C6_witness :
    (handleMessage envW sessionStart ⟨strOutputStreamData, 7, [97, 98], 1, [104]⟩).2.1 =
      [SessionEvent.output [104]] ∧
    (handleMessage envW sessionStart ⟨strOutputStreamData, 7, [97, 98], 1, [104]⟩).2.2 =
      [acknowledgeMessage sessionStart strOutputStreamData [97, 98] 7] ∧
    mapGet (handleMessage envW sessionStart
      ⟨strOutputStreamData, 7, [97, 98], 1, [104]⟩).1.outputMap [97, 98] = some [104] ∧
    (handleMessage envW (handleMessage envW sessionStart
      ⟨strOutputStreamData, 7, [97, 98], 1, [104]⟩).1
      ⟨strOutputStreamData, 7, [97, 98], 1, [104]⟩).2.1 = [] ∧
    (handleMessage envW (handleMessage envW sessionStart
      ⟨strOutputStreamData, 7, [97, 98], 1, [104]⟩).1
      ⟨strOutputStreamData, 7, [97, 98], 1, [104]⟩).2.2.length = 1 ∧
    mapGet (handleMessage envW (handleMessage envW sessionStart
      ⟨strOutputStreamData, 7, [97, 98], 1, [104]⟩).1
      ⟨strOutputStreamData, 7, [97, 98], 1, [104]⟩).1.outputMap [97, 98] = some [104] :=
  claim_C6_dedup envW sessionStart ⟨strOutputStreamData, 7, [97, 98], 1, [104]⟩
    rfl (by decide)

/-- C7: outgoingSequenceNumber starts at 0; write and setSize are no-ops on
a non-ready transport (readyState other than 1) and otherwise send exactly
one frame and increment the counter exactly once; handling an
output_stream_data message sends its acknowledgment frame without touching
the counter. -/
theorem claim_C7_sequence_discipline :
    sessionStart.outgoingSequenceNumber = 0 ∧
    (∀ (rs : Nat) (s : AWSSSMSession) (msg : List Nat), rs ≠ 1 →
      write rs s msg = (s, [])) ∧
    (∀ (rs : Nat) (s : AWSSSMSession) (cols rows : Int), rs ≠ 1 →
      setSize rs s cols rows = (s, [])) ∧
    (∀ (s : AWSSSMSession) (msg : List Nat),
      (write 1 s msg).1.outgoingSequenceNumber = s.outgoingSequenceNumber + 1 ∧
      (write 1 s msg).2.length = 1) ∧
    (∀ (s : AWSSSMSession) (cols rows : Int),
      (setSize 1 s cols rows).1.outgoingSequenceNumber = s.outgoingSequenceNumber + 1 ∧
      (setSize 1 s cols rows).2.length = 1) ∧
    (∀ (env : JsonEnv) (s : AWSSSMSession) (m : AgentMessage),
      m.MessageType = strOutputStreamData →
      (handleMessage env s m).1.outgoingSequenceNumber = s.outgoingSequenceNumber ∧
      (handleMessage env s m).2.2 =
        [acknowledgeMessage s m.MessageType m.MessageId m.SequenceNumber]) := by
  refine ⟨rfl, ?_, ?_, ?_, ?_, ?_⟩
  · intro rs s msg hrs
    unfold write send
    rw [if_pos hrs]
  · intro rs s cols rows hrs
    unfold setSize send
    rw [if_pos hrs]
  · intro s msg
    unfold write send
    rw [if_neg (by decide)]
    exact ⟨rfl, rfl⟩
  · intro s cols rows
    unfold setSize send
    rw [if_neg (by decide)]
    exact ⟨rfl, rfl⟩
  · intro env s m h
    unfold handleMessage
    rw [h, if_pos rfl]
    exact ⟨rfl, rfl⟩

/-- C7 witness: concrete readiness behaviour and one acknowledged frame. -/
theorem claim_C7_witness :
    write 0 sessionStart [104] = (sessionStart, []) ∧
    (write 1 sessionStart [104]).1.outgoingSequenceNumber =
      sessionStart.outgoingSequenceNumber + 1 ∧
    (handleMessage envW sessionStart
      ⟨strOutputStreamData, 7, [97], 1, []⟩).1.outgoingSequenceNumber =
      sessionStart.outgoingSequenceNumber :=
  ⟨claim_C7_sequence_discipline.2.1 0 sessionStart [104] (by decide),
    (claim_C7_sequence_discipline.2.2.2.1 sessionStart [104]).1,
    (claim_C7_sequence_discipline.2.2.2.2.2 envW sessionStart
      ⟨strOutputStreamData, 7, [97], 1, []⟩ rfl).1⟩

/-- C8: a channel_closed message with a payload whose Output field is
done emits exactly one output event carrying done plus CR LF and sets
the terminated flag; with an empty Output field it emits nothing but still
terminates. -/
theorem claim_C8_channel_closed (env : JsonEnv) (s : AWSSSMSession) (m : AgentMessage)
    (h : m.MessageType = strChannelClosed) (hp : m.Payload ≠ []) :
    (env.outField m.Payload = [100, 111, 110, 101] →
      handleMessage env s m = ({ s with connectionTerminated := true },
        [SessionEvent.output [100, 111, 110, 101, 13, 10]], [])) ∧
    (env.outField m.Payload = [] →
      handleMessage env s m = ({ s with connectionTerminated := true }, [], [])) := by
  constructor
  · intro ho
    unfold handleMessage
    rw [h]
    rw [if_neg (by decide), if_neg (by decide), if_neg (by decide), if_neg (by decide),
      if_neg (by decide), if_pos rfl]
    rw [ho]
    rw [if_pos ⟨hp, by decide⟩]
    rfl
  · intro ho
    unfold handleMessage
    rw [h]
    rw [if_neg (by decide), if_neg (by decide), if_neg (by decide), if_neg (by decide),
      if_neg (by decide), if_pos rfl]
    rw [ho]
    rw [if_neg (by simp)]

/-- C8 witness: concrete channel_closed messages with Output done and with
empty Output. -/
theorem claim_C8_witness :
    handleMessage envW sessionStart ⟨strChannelClosed, 0, [], 1, pOutDone⟩ =
      ({ sessionStart with connectionTerminated := true },
        [SessionEvent.output [100, 111, 110, 101, 13, 10]], []) ∧
    handleMessage envW sessionStart ⟨strChannelClosed, 0, [], 1, pOutEmpty⟩ =
      ({ sessionStart with connectionTerminated := true }, [], []) :=
  ⟨(claim_C8_channel_closed envW sessionStart ⟨strChannelClosed, 0, [], 1, pOutDone⟩
      rfl (by decide)).1 (by decide),
    (claim_C8_channel_closed envW sessionStart ⟨strChannelClosed, 0, [], 1, pOutEmpty⟩
      rfl (by decide)).2 (by decide)⟩

end SSM

